import Mathlib

/-!
Verification of the data-transformation core of the inventory dashboard
(`app.py`): the DOI status classifier, the rule filters, the top-buyer
aggregation, the sampling step, the insight composer, and the Explorer
equality filters.

Modelling conventions:
* A pandas DataFrame is a `List` of records, preserving row order.
* Numeric columns (`DOI`, currency amounts) are `ℚ`; count columns are `Nat`.
* Timestamps (`ExpiryDate`, `pd.Timestamp.today()`) are `ℚ` measured in days,
  so a render-time timestamp may carry a fractional (time-of-day) part;
  `pd.Timedelta(days=k)` is the literal `k`.  The render-time clock value is
  passed as an explicit parameter `today`.
* `df.sample(n)` draws `n` distinct row positions at random; the randomness is
  passed in as an explicit list of chosen positions, and `sample` raises
  (returns `none`) exactly when `n` exceeds the number of rows, as pandas does.
-/

/-- One row of the source table (`days_of_inventory_200_products.csv`), with
the columns `app.py` reads.  The column `12MoDollarsSold` cannot start with a
digit in Lean and is named `twelveMoDollarsSold`. -/
structure Row where
  Product : String
  Warehouse : String
  Buyer : String
  Category : String
  StockQty : Nat
  AvgLandedCost : ℚ
  TotalInventoryCost : ℚ
  Last12MoQtySold : Nat
  DOI : ℚ
  OverstockInventoryValue : ℚ
  ExpiryDate : ℚ
  twelveMoDollarsSold : ℚ
deriving DecidableEq

/-- A row after the `DOI_Status` column has been appended (line 48 of
`app.py`). -/
structure SRow extends Row where
  DOI_Status : String
deriving DecidableEq

/-- The body of the loop in `get_doi_status`, applied to one DOI value. -/
def doiStatus (doi : ℚ) : String :=
  if doi < 10 then "🔴 Low"
  else if doi > 180 then "🟢 Overstock"
  else "🟡 Normal"

/-- Embedding of `get_doi_status` (lines 37-46): builds the status list by appending one
label per DOI value, in order. -/
def get_doi_status (dois : List ℚ) : List String :=
  dois.map doiStatus

/-- Embedding of `df['DOI_Status'] = get_doi_status(df['DOI'])` (line 48): the computed
column is zipped back onto the rows positionally. -/
def with_doi_status (df : List Row) : List SRow :=
  (df.zip (get_doi_status (df.map Row.DOI))).map fun p =>
    { toRow := p.1, DOI_Status := p.2 }

/-- Embedding of `low_doi_df = df[df['DOI'] < 10]` (line 52). -/
def low_doi_df (df : List SRow) : List SRow :=
  df.filter fun r => decide (r.DOI < 10)

/-- Embedding of `overstock_df = df[df['OverstockInventoryValue'] > 0]` (line 53). -/
def overstock_df (df : List SRow) : List SRow :=
  df.filter fun r => decide (r.OverstockInventoryValue > 0)

/-- Embedding of `expiring_df = df[df['ExpiryDate'] < pd.Timestamp.today() + pd.Timedelta(days=30)]`
(line 54), with the render-time clock value `today` passed explicitly. -/
def expiring_df (today : ℚ) (df : List SRow) : List SRow :=
  df.filter fun r => decide (r.ExpiryDate < today + 30)

/-- Embedding of `high_cost_low_sales_df = df[(df['TotalInventoryCost'] > 5000) & (df['Last12MoQtySold'] < 50)]`
(line 55). -/
def high_cost_low_sales_df (df : List SRow) : List SRow :=
  df.filter fun r => decide (r.TotalInventoryCost > 5000) && decide (r.Last12MoQtySold < 50)

/-- Embedding of `low_doi_count = low_doi_df.shape[0]` (line 65). -/
def low_doi_count (df : List SRow) : Nat :=
  (low_doi_df df).length

/-- Embedding of `expiring_soon = filtered_df[filtered_df['ExpiryDate'] < pd.Timestamp.today() + pd.Timedelta(days=90)]`
(line 204), the Explorer-view expiry filter. -/
def expiring_soon (today : ℚ) (df : List SRow) : List SRow :=
  df.filter fun r => decide (r.ExpiryDate < today + 90)

/-- The classifier `doiStatus` yields the Low label exactly below the threshold. -/
theorem doiStatus_eq_low_iff (v : ℚ) : doiStatus v = "🔴 Low" ↔ v < 10 := by
  unfold doiStatus
  split_ifs with h h' <;> simp_all

/-- C1: the status classifier is total and returns exactly one of the three
labels: `"🔴 Low"` iff the DOI value is below 10 (hence also for every
negative value), `"🟢 Overstock"` iff it exceeds 180, and `"🟡 Normal"` on
the closed interval between the two thresholds; and `get_doi_status` applies
this classification to every value of the column, in order. -/
theorem get_doi_status_classifies (v : ℚ) (dois : List ℚ) :
    (doiStatus v = "🔴 Low" ↔ v < 10) ∧
    (doiStatus v = "🟢 Overstock" ↔ 180 < v) ∧
    (doiStatus v = "🟡 Normal" ↔ 10 ≤ v ∧ v ≤ 180) ∧
    (doiStatus v = "🔴 Low" ∨ doiStatus v = "🟢 Overstock" ∨ doiStatus v = "🟡 Normal") ∧
    get_doi_status dois = dois.map doiStatus := by
  refine ⟨doiStatus_eq_low_iff v, ?_, ?_, ?_, rfl⟩ <;>
    · unfold doiStatus
      split_ifs with h h' <;> simp_all <;> linarith

/-- Filtering twice with the same predicate is the same as filtering once. -/
theorem filter_idem {α : Type} (p : α → Bool) (l : List α) :
    (l.filter p).filter p = l.filter p := by
  induction l with
  | nil => rfl
  | cons a t ih =>
    by_cases hp : p a = true
    · simp [List.filter_cons, hp, ih]
    · simp [List.filter_cons, hp, ih]

/-- C8: the Low-DOI, Overstock and High-cost-low-sales rule filters are
idempotent on a fixed table snapshot: applying each one to its own output
returns that output unchanged. -/
theorem rule_filters_idempotent (df : List SRow) :
    low_doi_df (low_doi_df df) = low_doi_df df ∧
    overstock_df (overstock_df df) = overstock_df df ∧
    high_cost_low_sales_df (high_cost_low_sales_df df) = high_cost_low_sales_df df := by
  exact ⟨filter_idem _ df, filter_idem _ df, filter_idem _ df⟩

/-- C6: for a fixed render-time clock value `today`, the Overview expiring
filter selects exactly the rows whose `ExpiryDate` is strictly earlier than
`today + 30` days, and the Explorer one exactly those strictly earlier than
`today + 90` days. -/
theorem expiring_filters_select_exactly (today : ℚ) (df : List SRow) (r : SRow) :
    (r ∈ expiring_df today df ↔ r ∈ df ∧ r.ExpiryDate < today + 30) ∧
    (r ∈ expiring_soon today df ↔ r ∈ df ∧ r.ExpiryDate < today + 90) := by
  constructor <;> simp [expiring_df, expiring_soon, List.mem_filter]

/-- Appending the status column pairs each row with the label of its own
`DOI` value; no other field is touched. -/
theorem with_doi_status_eq_map (df : List Row) :
    with_doi_status df = df.map fun r => { toRow := r, DOI_Status := doiStatus r.DOI } := by
  induction df with
  | nil => rfl
  | cons a t ih =>
    simp only [with_doi_status, get_doi_status, List.map_cons, List.zip_cons_cons]
    simp only [with_doi_status, get_doi_status, List.map_map] at ih
    simp [List.map_map, ih]

/-- Every row of the status-augmented table carries exactly the label the
classifier assigns to its `DOI` value. -/
theorem mem_with_doi_status_status (df : List Row) (r : SRow)
    (h : r ∈ with_doi_status df) : r.DOI_Status = doiStatus r.DOI := by
  rw [with_doi_status_eq_map] at h
  rcases List.mem_map.mp h with ⟨r0, _, he⟩
  rw [← he]

/-- C10: a row of the status-augmented table belongs to the Low-DOI filter
subset iff its `DOI_Status` column holds the Low label, and hence the
low-stock KPI count equals the number of rows classified Low. -/
theorem low_doi_subset_iff_status_low (df : List Row) :
    (∀ r : SRow, r ∈ low_doi_df (with_doi_status df) ↔
      r ∈ with_doi_status df ∧ r.DOI_Status = "🔴 Low") ∧
    low_doi_count (with_doi_status df) =
      ((with_doi_status df).filter fun r => decide (r.DOI_Status = "🔴 Low")).length := by
  have key : ∀ r : SRow, r ∈ with_doi_status df →
      (decide (r.DOI < 10) = decide (r.DOI_Status = "🔴 Low")) := by
    intro r hr
    rw [mem_with_doi_status_status df r hr]
    by_cases h : r.DOI < 10
    · simp [h, (doiStatus_eq_low_iff r.DOI).mpr h]
    · have : ¬ doiStatus r.DOI = "🔴 Low" := fun hc => h ((doiStatus_eq_low_iff r.DOI).mp hc)
      simp [h, this]
  constructor
  · intro r
    simp only [low_doi_df, List.mem_filter]
    constructor
    · rintro ⟨hm, hd⟩
      refine ⟨hm, ?_⟩
      have := key r hm
      rw [hd] at this
      simpa using this.symm
    · rintro ⟨hm, hs⟩
      refine ⟨hm, ?_⟩
      have := key r hm
      rw [this]
      simpa using hs
  · unfold low_doi_count low_doi_df
    rw [List.filter_congr key]

/-- The conditional equality filter of the Explorer view: one
`if selected != "All": filtered_df = filtered_df[filtered_df[col] == selected]`
step (lines 143-148), for the column read by `proj`. -/
def eqFilter (sel : String) (proj : SRow → String) (df : List SRow) : List SRow :=
  if sel = "All" then df else df.filter fun r => decide (proj r = sel)

/-- Embedding of `filtered_df` (lines 142-148): `df.copy()` followed by the three
conditional equality filters, applied in order Warehouse, Buyer, Category. -/
def filtered_df (sw sb sc : String) (df : List SRow) : List SRow :=
  eqFilter sc (fun r => r.Category) (eqFilter sb (fun r => r.Buyer) (eqFilter sw (fun r => r.Warehouse) df))

/-- An equality-filter step only ever keeps rows of its input. -/
theorem mem_of_mem_eqFilter {sel : String} {proj : SRow → String} {df : List SRow}
    {r : SRow} (h : r ∈ eqFilter sel proj df) : r ∈ df := by
  unfold eqFilter at h
  split_ifs at h with hs
  · exact h
  · exact (List.mem_filter.mp h).1

/-- C9: nothing writes back to the source table except the appended
`DOI_Status` column.  Dropping that column from the status-augmented table
recovers the source rows exactly (same rows, same order, all other columns
untouched), and every filter — the four rule filters of the Overview view,
the Explorer expiry filter, and the Explorer equality filters — produces a
derived view that is a sublist of its input, taking rows verbatim. -/
theorem computations_leave_source_unchanged (df : List Row) (today : ℚ)
    (sw sb sc : String) :
    ((with_doi_status df).map SRow.toRow = df) ∧
    ((with_doi_status df).length = df.length) ∧
    (∀ s : List SRow,
      List.Sublist (low_doi_df s) s ∧
      List.Sublist (overstock_df s) s ∧
      List.Sublist (expiring_df today s) s ∧
      List.Sublist (high_cost_low_sales_df s) s ∧
      List.Sublist (expiring_soon today s) s ∧
      List.Sublist (filtered_df sw sb sc s) s) := by
  refine ⟨?_, ?_, ?_⟩
  · rw [with_doi_status_eq_map, List.map_map]
    exact List.map_id'' (fun x => rfl) df
  · rw [with_doi_status_eq_map]
    exact List.length_map df _
  · intro s
    have heq : ∀ (sel : String) (proj : SRow → String) (l : List SRow),
        List.Sublist (eqFilter sel proj l) l := by
      intro sel proj l
      unfold eqFilter
      split_ifs with hs
      · exact List.Sublist.refl l
      · exact List.filter_sublist l
    refine ⟨List.filter_sublist s, List.filter_sublist s, List.filter_sublist s,
      List.filter_sublist s, List.filter_sublist s, ?_⟩
    exact ((heq sc _ _).trans (heq sb _ _)).trans (heq sw _ _)

/-- C7: with the Warehouse selection set to an actual warehouse value `W`
(rather than the `"All"` sentinel), every row reaching the Explorer chart
datasets has `Warehouse = W`; the whole Explorer pipeline equals running the
same pipeline, with the Warehouse selection a pass-through, on the table
pre-restricted to the `Warehouse = W` rows — so every chart dataset, each a
function of `filtered_df`, coincides on the two — and each equality filter
whose selection is the `"All"` sentinel is a pass-through, leaving the table
unchanged. -/
theorem explorer_warehouse_filter_refines (df : List SRow) (W : String)
    (hW : W ≠ "All") :
    (∀ sb sc r, r ∈ filtered_df W sb sc df → r.Warehouse = W) ∧
    (∀ sb sc, filtered_df W sb sc df =
      filtered_df "All" sb sc (df.filter fun r => decide (r.Warehouse = W))) ∧
    (∀ (α : Type) (f : List SRow → α) (sb sc : String),
      f (filtered_df W sb sc df) =
        f (filtered_df "All" sb sc (df.filter fun r => decide (r.Warehouse = W)))) ∧
    (∀ (proj : SRow → String) (l : List SRow), eqFilter "All" proj l = l) ∧
    (filtered_df "All" "All" "All" df = df) := by
  have hbase : ∀ sb sc, filtered_df W sb sc df =
      filtered_df "All" sb sc (df.filter fun r => decide (r.Warehouse = W)) := by
    intro sb sc
    unfold filtered_df eqFilter
    rw [if_neg hW, if_pos rfl]
  refine ⟨?_, hbase, ?_, ?_, ?_⟩
  · intro sb sc r hr
    unfold filtered_df at hr
    have h1 := mem_of_mem_eqFilter (mem_of_mem_eqFilter hr)
    unfold eqFilter at h1
    rw [if_neg hW] at h1
    have := (List.mem_filter.mp h1).2
    simpa using this
  · intro α f sb sc
    rw [hbase sb sc]
  · intro proj l
    unfold eqFilter
    rw [if_pos rfl]
  · unfold filtered_df eqFilter
    rw [if_pos rfl, if_pos rfl, if_pos rfl]

/-- The distinct values of the `Buyer` column of a subset: the group keys of
`overstock_df.groupby('Buyer')` (line 66).  pandas enumerates group keys in
sorted order; the enumeration order only affects which of several equally
maximal groups `idxmax` würde return, which no stated property depends on, so
the `dedup` order is used here. -/
def buyersOf (rows : List SRow) : List String :=
  (rows.map fun r => r.Buyer).dedup

/-- Embedding of `groupby('Buyer')['OverstockInventoryValue'].sum()` evaluated at one
group key: the arithmetic sum of the column over the rows of that group. -/
def overstock_sum_by_buyer (rows : List SRow) (b : String) : ℚ :=
  ((rows.filter fun r => decide (r.Buyer = b)).map fun r => r.OverstockInventoryValue).sum

/-- Fold computing the first key attaining the maximal value of `f`, starting
from candidate `k`: the `idxmax` of a series with index `k :: ks`.  The
running best is replaced only on a strict increase, so the earliest maximal
key wins, as in pandas. -/
def argmaxKey (f : String → ℚ) (k : String) (ks : List String) : String :=
  ks.foldl (fun best k2 => if f k2 > f best then k2 else best) k

/-- Embedding of `Series.idxmax` over an index list: `none` on an empty series. -/
def idxmax (f : String → ℚ) : List String → Option String
  | [] => none
  | k :: ks => some (argmaxKey f k ks)

/-- Embedding of `Series.max` over the nonempty index list `k :: ks`. -/
def maxOver (f : String → ℚ) (k : String) (ks : List String) : ℚ :=
  ks.foldl (fun m k2 => max m (f k2)) (f k)

/-- Embedding of `top_buyer` (line 66): the buyer whose overstock rows sum highest, or the
`None` sentinel when the overstock subset is empty. -/
def top_buyer (df : List SRow) : Option String :=
  if (overstock_df df).isEmpty then none
  else idxmax (overstock_sum_by_buyer (overstock_df df)) (buyersOf (overstock_df df))

/-- Embedding of `top_buyer_val` (line 67): the maximal per-buyer overstock sum, or `0`
when the overstock subset is empty. -/
def top_buyer_val (df : List SRow) : ℚ :=
  if (overstock_df df).isEmpty then 0
  else
    match buyersOf (overstock_df df) with
    | [] => 0
    | k :: ks => maxOver (overstock_sum_by_buyer (overstock_df df)) k ks

/-- The argmax fold returns one of its candidates. -/
theorem argmaxKey_mem (f : String → ℚ) (ks : List String) :
    ∀ k, argmaxKey f k ks = k ∨ argmaxKey f k ks ∈ ks := by
  induction ks with
  | nil => intro k; exact Or.inl rfl
  | cons a t ih =>
    intro k
    have hc : argmaxKey f k (a :: t) = argmaxKey f (if f a > f k then a else k) t := rfl
    rw [hc]
    by_cases h : f a > f k
    · rw [if_pos h]
      rcases ih a with h1 | h1
      · rw [h1]; exact Or.inr (List.mem_cons_self a t)
      · exact Or.inr (List.mem_cons_of_mem a h1)
    · rw [if_neg h]
      rcases ih k with h1 | h1
      · exact Or.inl h1
      · exact Or.inr (List.mem_cons_of_mem a h1)

/-- The argmax fold dominates its starting candidate and every listed key. -/
theorem argmaxKey_ge (f : String → ℚ) (ks : List String) :
    ∀ k, f k ≤ f (argmaxKey f k ks) ∧ ∀ x ∈ ks, f x ≤ f (argmaxKey f k ks) := by
  induction ks with
  | nil => intro k; exact ⟨le_refl _, by intro x hx; cases hx⟩
  | cons a t ih =>
    intro k
    have hc : argmaxKey f k (a :: t) = argmaxKey f (if f a > f k then a else k) t := rfl
    rw [hc]
    by_cases h : f a > f k
    · rw [if_pos h]
      refine ⟨le_of_lt (lt_of_lt_of_le h (ih a).1), ?_⟩
      intro x hx
      rcases List.mem_cons.mp hx with hx | hx
      · rw [hx]; exact (ih a).1
      · exact (ih a).2 x hx
    · rw [if_neg h]
      refine ⟨(ih k).1, ?_⟩
      intro x hx
      rcases List.mem_cons.mp hx with hx | hx
      · rw [hx]; exact le_trans (le_of_not_lt h) (ih k).1
      · exact (ih k).2 x hx

/-- The maximum of the series is the value of the series at its argmax. -/
theorem maxOver_eq_argmax (f : String → ℚ) (ks : List String) :
    ∀ k, maxOver f k ks = f (argmaxKey f k ks) := by
  induction ks with
  | nil => intro k; rfl
  | cons a t ih =>
    intro k
    unfold maxOver argmaxKey
    simp only [List.foldl_cons]
    have hacc : max (f k) (f a) = f (if f a > f k then a else k) := by
      by_cases h : f a > f k
      · simp [if_pos h, max_eq_right (le_of_lt h)]
      · simp [if_neg h, max_eq_left (le_of_not_lt h)]
    rw [hacc]
    exact ih (if f a > f k then a else k)

/-- A nonempty subset has a nonempty group-key list. -/
theorem buyersOf_ne_nil {rows : List SRow} (h : rows ≠ []) : buyersOf rows ≠ [] := by
  rcases rows with _ | ⟨r, t⟩
  · exact absurd rfl h
  · exact List.ne_nil_of_mem (List.mem_dedup.mpr (List.mem_map_of_mem _ (List.mem_cons_self r t)))

/-- C2: the top-buyer aggregation returns the `None` sentinel iff the
overstock subset is empty; on a nonempty subset it returns a buyer of the
subset whose group attains the maximal per-buyer sum of
`OverstockInventoryValue`, the reported value is exactly the arithmetic sum
of that column over that buyer's rows, and no other buyer's group sums
strictly higher. -/
theorem top_buyer_spec (df : List SRow) :
    (top_buyer df = none ↔ overstock_df df = []) ∧
    (overstock_df df ≠ [] →
      ∃ b, top_buyer df = some b ∧
        b ∈ buyersOf (overstock_df df) ∧
        top_buyer_val df = overstock_sum_by_buyer (overstock_df df) b ∧
        ∀ b' ∈ buyersOf (overstock_df df),
          overstock_sum_by_buyer (overstock_df df) b' ≤
            overstock_sum_by_buyer (overstock_df df) b) := by
  constructor
  · constructor
    · intro h
      unfold top_buyer at h
      split_ifs at h with he
      · exact List.isEmpty_iff.mp he
      · have hne : overstock_df df ≠ [] := fun hc => he (List.isEmpty_iff.mpr hc)
        rcases hk : buyersOf (overstock_df df) with _ | ⟨k, ks⟩
        · exact absurd hk (buyersOf_ne_nil hne)
        · rw [hk] at h
          exact absurd h (by simp [idxmax])
    · intro h
      unfold top_buyer
      rw [if_pos (List.isEmpty_iff.mpr h)]
  · intro hne
    have he : ¬ (overstock_df df).isEmpty = true := fun hc => hne (List.isEmpty_iff.mp hc)
    rcases hk : buyersOf (overstock_df df) with _ | ⟨k, ks⟩
    · exact absurd hk (buyersOf_ne_nil hne)
    · refine ⟨argmaxKey (overstock_sum_by_buyer (overstock_df df)) k ks, ?_, ?_, ?_, ?_⟩
      · unfold top_buyer
        rw [if_neg he, hk]
        rfl
      · rcases argmaxKey_mem (overstock_sum_by_buyer (overstock_df df)) ks k with h1 | h1
        · rw [h1]; exact List.mem_cons_self k ks
        · exact List.mem_cons_of_mem k h1
      · unfold top_buyer_val
        rw [if_neg he, hk]
        exact maxOver_eq_argmax _ ks k
      · intro b' hb'
        rcases List.mem_cons.mp hb' with h1 | h1
        · rw [h1]
          exact (argmaxKey_ge (overstock_sum_by_buyer (overstock_df df)) ks k).1
        · exact (argmaxKey_ge (overstock_sum_by_buyer (overstock_df df)) ks k).2 b' h1

/-- Embedding of `DataFrame.sample(n)` (lines 68-69): draws `n` distinct row positions at
random and returns those rows.  The positions drawn by the random source are
passed in as `choice`; pandas raises a `ValueError` (here `none`) exactly
when more rows are requested than exist. -/
def dfSample {α : Type} (xs : List α) (n : Nat) (choice : List Nat) : Option (List α) :=
  if n ≤ xs.length then some (choice.filterMap fun i => xs[i]?) else none

/-- Embedding of `risky_sample = high_cost_low_sales_df.sample(min(2, len(high_cost_low_sales_df)))['Product'].tolist()`
(line 68). -/
def risky_sample (df : List SRow) (choice : List Nat) : Option (List String) :=
  (dfSample (high_cost_low_sales_df df) (min 2 (high_cost_low_sales_df df).length) choice).map
    fun rows => rows.map fun r => r.Product

/-- Embedding of `expiring_sample = expiring_df.sample(min(2, len(expiring_df)))['Product'].tolist()`
(line 69). -/
def expiring_sample (today : ℚ) (df : List SRow) (choice : List Nat) : Option (List String) :=
  (dfSample (expiring_df today df) (min 2 (expiring_df today df).length) choice).map
    fun rows => rows.map fun r => r.Product

/-- Looking up in-range positions never drops an element. -/
theorem length_filterMap_lookup {α : Type} (xs : List α) (choice : List Nat)
    (h : ∀ i ∈ choice, i < xs.length) :
    (choice.filterMap fun i => xs[i]?).length = choice.length := by
  induction choice with
  | nil => rfl
  | cons i t ih =>
    have hi : i < xs.length := h i (List.mem_cons_self i t)
    have hr : xs[i]? = some (xs.get ⟨i, hi⟩) := List.getElem?_eq_getElem hi
    rw [List.filterMap_cons, hr]
    simp only [List.length_cons]
    rw [ih fun j hj => h j (List.mem_cons_of_mem i hj)]

/-- C5: the sampling step never errors — `min(K, len(subset))` rows are
always available — and, when the random source draws the contracted number
of distinct in-range positions, it returns exactly `min(K, subset size)`
rows (hence at most `K = 2` and at most the subset size), returning zero
rows iff the subset is empty; this covers both the high-cost-low-sales and
the expiring-soon samples. -/
theorem sampling_bounded (df : List SRow) (today : ℚ) (rc ec : List Nat)
    (hrl : rc.length = min 2 (high_cost_low_sales_df df).length)
    (hrv : ∀ i ∈ rc, i < (high_cost_low_sales_df df).length)
    (hel : ec.length = min 2 (expiring_df today df).length)
    (hev : ∀ i ∈ ec, i < (expiring_df today df).length) :
    ∃ lr le_, risky_sample df rc = some lr ∧ expiring_sample today df ec = some le_ ∧
      lr.length = min 2 (high_cost_low_sales_df df).length ∧
      lr.length ≤ 2 ∧ lr.length ≤ (high_cost_low_sales_df df).length ∧
      (lr = [] ↔ high_cost_low_sales_df df = []) ∧
      le_.length = min 2 (expiring_df today df).length ∧
      le_.length ≤ 2 ∧ le_.length ≤ (expiring_df today df).length ∧
      (le_ = [] ↔ expiring_df today df = []) := by
  have hmin1 : min 2 (high_cost_low_sales_df df).length ≤ (high_cost_low_sales_df df).length :=
    Nat.min_le_right _ _
  have hmin2 : min 2 (expiring_df today df).length ≤ (expiring_df today df).length :=
    Nat.min_le_right _ _
  refine ⟨(rc.filterMap fun i => (high_cost_low_sales_df df)[i]?).map (fun r => r.Product),
          (ec.filterMap fun i => (expiring_df today df)[i]?).map (fun r => r.Product),
          ?_, ?_, ?_, ?_, ?_, ?_, ?_, ?_, ?_, ?_⟩
  · unfold risky_sample dfSample
    rw [if_pos hmin1]
    rfl
  · unfold expiring_sample dfSample
    rw [if_pos hmin2]
    rfl
  · rw [List.length_map, length_filterMap_lookup _ _ hrv, hrl]
  · rw [List.length_map, length_filterMap_lookup _ _ hrv, hrl]
    exact Nat.min_le_left _ _
  · rw [List.length_map, length_filterMap_lookup _ _ hrv, hrl]
    exact hmin1
  · rw [← List.length_eq_zero, List.length_map, length_filterMap_lookup _ _ hrv, hrl,
        ← List.length_eq_zero (l := high_cost_low_sales_df df)]
    omega
  · rw [List.length_map, length_filterMap_lookup _ _ hev, hel]
  · rw [List.length_map, length_filterMap_lookup _ _ hev, hel]
    exact Nat.min_le_left _ _
  · rw [List.length_map, length_filterMap_lookup _ _ hev, hel]
    exact hmin2
  · rw [← List.length_eq_zero, List.length_map, length_filterMap_lookup _ _ hev, hel,
        ← List.length_eq_zero (l := expiring_df today df)]
    omega

/-- Rendering of the Python format `f"{v:,.0f}"`: the value rounded to zero
decimal places.  The thousands separators are a presentation detail no
stated property depends on and are omitted from the digit string. -/
def fmtMoney (v : ℚ) : String :=
  toString (round v)

/-- The unconditional low-stock insight line (line 72). -/
def lowLine (n : Nat) : String :=
  "<li><b>🔻 " ++ (toString n ++ " products</b> are critically low on inventory (DOI < 10).</li>")

/-- The top-overstock-buyer insight line (line 74). -/
def buyerLine (b : String) (v : ℚ) : String :=
  "<li><b>📦 Buyer " ++ (b ++ ("</b> is carrying <b>$" ++ (fmtMoney v ++ "</b> in overstocked items.</li>")))

/-- The high-cost-low-sales insight line (line 76). -/
def riskyLine (ps : List String) : String :=
  "<li><b>⚠️ High holding cost</b> with low movement detected in SKUs: " ++ (String.intercalate ", " ps ++ ".</li>")

/-- The expiring-soon insight line (line 78). -/
def expiringLine (ps : List String) : String :=
  "<li><b>⏳ Expiring soon</b>: " ++ (String.intercalate ", " ps ++ " within 30 days.</li>")

/-- Lines 71-78: the low-stock line is appended unconditionally; the buyer
line is guarded by Python truthiness of `top_buyer` (`None` and the empty
string are falsy), and the two sample lines by truthiness of their lists
(an empty list is falsy). -/
def insight_lines (n : Nat) (tb : Option String) (tbv : ℚ)
    (risky expiring : List String) : List String :=
  [lowLine n]
  ++ (match tb with
      | some b => if b = "" then [] else [buyerLine b tbv]
      | none => [])
  ++ (if risky = [] then [] else [riskyLine risky])
  ++ (if expiring = [] then [] else [expiringLine expiring])

/-- The Overview insight block (lines 64-78) as one pipeline: compute the
aggregates and samples from the status-augmented table and compose the
lines, propagating a sampling error (which in fact never occurs) as `none`. -/
def overview_insights (df : List SRow) (today : ℚ) (rc ec : List Nat) : Option (List String) :=
  match risky_sample df rc, expiring_sample today df ec with
  | some r, some e =>
      some (insight_lines (low_doi_count df) (top_buyer df) (top_buyer_val df) r e)
  | _, _ => none

/-- Two appends whose left parts differ within their first eight characters
are different strings, whatever is appended. -/
theorem append_ne_of_head_ne (p q : String) (h1 : 8 ≤ p.data.length)
    (h2 : 8 ≤ q.data.length) (hne : p.data.take 8 ≠ q.data.take 8)
    (x y : String) : p ++ x ≠ q ++ y := by
  intro he
  apply hne
  have hd : (p ++ x).data = (q ++ y).data := congrArg String.data he
  rw [String.data_append, String.data_append] at hd
  rw [← List.take_append_of_le_length h1, ← List.take_append_of_le_length h2, hd]

/-- The four insight-line templates are pairwise distinguishable by the
marker in their eighth character, whatever data is spliced in. -/
theorem buyerLine_ne_lowLine (b : String) (v : ℚ) (n : Nat) : buyerLine b v ≠ lowLine n := by
  unfold buyerLine lowLine
  exact append_ne_of_head_ne _ _ (by decide) (by decide) (by decide) _ _

/-- Distinguishes the buyer line from the high-cost-low-sales line. -/
theorem buyerLine_ne_riskyLine (b : String) (v : ℚ) (ps : List String) :
    buyerLine b v ≠ riskyLine ps := by
  unfold buyerLine riskyLine
  exact append_ne_of_head_ne _ _ (by decide) (by decide) (by decide) _ _

/-- Distinguishes the buyer line from the expiring-soon line. -/
theorem buyerLine_ne_expiringLine (b : String) (v : ℚ) (ps : List String) :
    buyerLine b v ≠ expiringLine ps := by
  unfold buyerLine expiringLine
  exact append_ne_of_head_ne _ _ (by decide) (by decide) (by decide) _ _

/-- Distinguishes the high-cost-low-sales line from the low-stock line. -/
theorem riskyLine_ne_lowLine (ps : List String) (n : Nat) : riskyLine ps ≠ lowLine n := by
  unfold riskyLine lowLine
  exact append_ne_of_head_ne _ _ (by decide) (by decide) (by decide) _ _

/-- Distinguishes the high-cost-low-sales line from the expiring-soon line. -/
theorem riskyLine_ne_expiringLine (ps qs : List String) : riskyLine ps ≠ expiringLine qs := by
  unfold riskyLine expiringLine
  exact append_ne_of_head_ne _ _ (by decide) (by decide) (by decide) _ _

/-- Distinguishes the expiring-soon line from the low-stock line. -/
theorem expiringLine_ne_lowLine (ps : List String) (n : Nat) : expiringLine ps ≠ lowLine n := by
  unfold expiringLine lowLine
  exact append_ne_of_head_ne _ _ (by decide) (by decide) (by decide) _ _

/-- Any member of the composed insight list is one of the four templates,
and the guarded ones occur only when their guard was truthy. -/
theorem mem_insight_lines {s : String} {n : Nat} {tb : Option String} {tbv : ℚ}
    {risky expiring : List String} (h : s ∈ insight_lines n tb tbv risky expiring) :
    s = lowLine n ∨
    (∃ b, tb = some b ∧ b ≠ "" ∧ s = buyerLine b tbv) ∨
    (risky ≠ [] ∧ s = riskyLine risky) ∨
    (expiring ≠ [] ∧ s = expiringLine expiring) := by
  unfold insight_lines at h
  rcases List.mem_append.mp h with h1 | h1
  · rcases List.mem_append.mp h1 with h2 | h2
    · rcases List.mem_append.mp h2 with h3 | h3
      · exact Or.inl (List.mem_singleton.mp h3)
      · rcases htb : tb with _ | b
        · rw [htb] at h3
          exact absurd h3 (List.not_mem_nil s)
        · rw [htb] at h3
          have h3' : s ∈ (if b = "" then ([] : List String) else [buyerLine b tbv]) := h3
          by_cases hb : b = ""
          · rw [if_pos hb] at h3'
            exact absurd h3' (List.not_mem_nil s)
          · rw [if_neg hb] at h3'
            exact Or.inr (Or.inl ⟨b, rfl, hb, List.mem_singleton.mp h3'⟩)
    · by_cases hr : risky = []
      · rw [if_pos hr] at h2
        exact absurd h2 (List.not_mem_nil s)
      · rw [if_neg hr] at h2
        exact Or.inr (Or.inr (Or.inl ⟨hr, List.mem_singleton.mp h2⟩))
  · by_cases he : expiring = []
    · rw [if_pos he] at h1
      exact absurd h1 (List.not_mem_nil s)
    · rw [if_neg he] at h1
      exact Or.inr (Or.inr (Or.inr ⟨he, List.mem_singleton.mp h1⟩))

/-- The high-cost-low-sales sample never errors: `min(2, len)` rows are
always available. -/
theorem risky_sample_some (df : List SRow) (rc : List Nat) :
    risky_sample df rc =
      some ((rc.filterMap fun i => (high_cost_low_sales_df df)[i]?).map fun r => r.Product) := by
  unfold risky_sample dfSample
  rw [if_pos (Nat.min_le_right _ _)]
  rfl

/-- The expiring-soon sample never errors either. -/
theorem expiring_sample_some (today : ℚ) (df : List SRow) (ec : List Nat) :
    expiring_sample today df ec =
      some ((ec.filterMap fun i => (expiring_df today df)[i]?).map fun r => r.Product) := by
  unfold expiring_sample dfSample
  rw [if_pos (Nat.min_le_right _ _)]
  rfl

/-- Counterexample to the claim that no line appears for a rule with empty
input: on the empty table the low-DOI subset is empty, yet the composer
still emits the low-stock line announcing 0 products. -/
theorem empty_table_still_emits_low_line :
    low_doi_df ([] : List SRow) = [] ∧
    overview_insights [] 0 [] [] = some [lowLine 0] := by
  constructor
  · rfl
  · rfl

/-- C3 (amended): the composer skips the overstock, high-cost-low-sales and
expiring-soon lines whenever the corresponding input is empty, but the
low-stock count line is always present — including a "0 products" line when
the low-DOI subset is empty. -/
theorem insights_skip_empty_rules (df : List SRow) (today : ℚ) (rc ec : List Nat)
    (hrl : rc.length = min 2 (high_cost_low_sales_df df).length)
    (hel : ec.length = min 2 (expiring_df today df).length) :
    ∃ ls, overview_insights df today rc ec = some ls ∧
      lowLine (low_doi_count df) ∈ ls ∧
      (overstock_df df = [] → ∀ b v, buyerLine b v ∉ ls) ∧
      (high_cost_low_sales_df df = [] → ∀ ps, riskyLine ps ∉ ls) ∧
      (expiring_df today df = [] → ∀ ps, expiringLine ps ∉ ls) := by
  refine ⟨insight_lines (low_doi_count df) (top_buyer df) (top_buyer_val df)
      ((rc.filterMap fun i => (high_cost_low_sales_df df)[i]?).map fun r => r.Product)
      ((ec.filterMap fun i => (expiring_df today df)[i]?).map fun r => r.Product),
    ?_, ?_, ?_, ?_, ?_⟩
  · unfold overview_insights
    rw [risky_sample_some, expiring_sample_some]
  · unfold insight_lines
    refine List.mem_append_left _ (List.mem_append_left _ (List.mem_append_left _ ?_))
    exact List.mem_singleton.mpr rfl
  · intro h0 b v hmem
    have htb : top_buyer df = none := by simp [top_buyer, h0]
    rcases mem_insight_lines hmem with h | ⟨b', hb', _, h⟩ | ⟨_, h⟩ | ⟨_, h⟩
    · exact buyerLine_ne_lowLine b v _ h
    · rw [htb] at hb'
      cases hb'
    · exact buyerLine_ne_riskyLine b v _ h
    · exact buyerLine_ne_expiringLine b v _ h
  · intro h0 ps hmem
    have hrc : rc = [] := by
      rw [h0] at hrl
      simp at hrl
      exact hrl
    rcases mem_insight_lines hmem with h | ⟨b', _, _, h⟩ | ⟨hne, h⟩ | ⟨_, h⟩
    · exact riskyLine_ne_lowLine ps _ h
    · exact (buyerLine_ne_riskyLine b' _ ps h.symm)
    · apply hne
      rw [hrc]
      rfl
    · exact riskyLine_ne_expiringLine ps _ h
  · intro h0 ps hmem
    have hec : ec = [] := by
      rw [h0] at hel
      simp at hel
      exact hel
    rcases mem_insight_lines hmem with h | ⟨b', _, _, h⟩ | ⟨_, h⟩ | ⟨hne, h⟩
    · exact expiringLine_ne_lowLine ps _ h
    · exact (buyerLine_ne_expiringLine b' _ ps h.symm)
    · exact (riskyLine_ne_expiringLine _ ps h.symm)
    · apply hne
      rw [hec]
      rfl

/-- A concrete low-DOI, high-cost, soon-expiring row used for witnesses. -/
def exRowA : SRow :=
  { Product := "P1", Warehouse := "W1", Buyer := "Alice", Category := "C1",
    StockQty := 3, AvgLandedCost := 2, TotalInventoryCost := 6000, Last12MoQtySold := 10,
    DOI := 5, OverstockInventoryValue := 100, ExpiryDate := 10, twelveMoDollarsSold := 40,
    DOI_Status := "🔴 Low" }

/-- A concrete overstocked row with a different buyer, used for witnesses. -/
def exRowB : SRow :=
  { Product := "P2", Warehouse := "W2", Buyer := "Bob", Category := "C2",
    StockQty := 80, AvgLandedCost := 3, TotalInventoryCost := 7000, Last12MoQtySold := 5,
    DOI := 200, OverstockInventoryValue := 250, ExpiryDate := 100, twelveMoDollarsSold := 60,
    DOI_Status := "🟢 Overstock" }

/-- A two-row concrete table used for witnesses. -/
def exDf : List SRow := [exRowA, exRowB]

/-- Evaluation of the Overview expiring filter on the concrete table: only
the first row expires within 30 days of day 0. -/
theorem expiring_df_exDf : expiring_df 0 exDf = [exRowA] := by
  unfold expiring_df exDf
  norm_num [List.filter_cons, exRowA, exRowB]

/-- Witness: on the concrete two-buyer table the overstock subset is
nonempty and the top-buyer aggregation satisfies its contract. -/
theorem top_buyer_spec_witness :
    overstock_df exDf ≠ [] ∧
    (∃ b, top_buyer exDf = some b ∧
      b ∈ buyersOf (overstock_df exDf) ∧
      top_buyer_val exDf = overstock_sum_by_buyer (overstock_df exDf) b ∧
      ∀ b' ∈ buyersOf (overstock_df exDf),
        overstock_sum_by_buyer (overstock_df exDf) b' ≤
          overstock_sum_by_buyer (overstock_df exDf) b) :=
  ⟨by decide, (top_buyer_spec exDf).2 (by decide)⟩

/-- Witness: with both rows qualifying as high-cost-low-sales and one row
expiring within 30 days, sampling returns exactly the contracted counts. -/
theorem sampling_bounded_witness :
    (([0, 1] : List Nat).length = min 2 (high_cost_low_sales_df exDf).length) ∧
    (∀ i ∈ ([0, 1] : List Nat), i < (high_cost_low_sales_df exDf).length) ∧
    (([0] : List Nat).length = min 2 (expiring_df 0 exDf).length) ∧
    (∀ i ∈ ([0] : List Nat), i < (expiring_df 0 exDf).length) ∧
    (∃ lr le_, risky_sample exDf [0, 1] = some lr ∧ expiring_sample 0 exDf [0] = some le_ ∧
            lr.length = min 2 (high_cost_low_sales_df exDf).length ∧
      lr.length ≤ 2 ∧ lr.length ≤ (high_cost_low_sales_df exDf).length ∧
      (lr = [] ↔ high_cost_low_sales_df exDf = []) ∧
      le_.length = min 2 (expiring_df 0 exDf).length ∧
      le_.length ≤ 2 ∧ le_.length ≤ (expiring_df 0 exDf).length ∧
      (le_ = [] ↔ expiring_df 0 exDf = [])) :=
  ⟨by decide, by decide, by rw [expiring_df_exDf]; decide, by rw [expiring_df_exDf]; decide,
    sampling_bounded exDf 0 [0, 1] [0] (by decide) (by decide)
      (by rw [expiring_df_exDf]; decide) (by rw [expiring_df_exDf]; decide)⟩

/-- Witness: the Explorer refinement at the concrete warehouse value
`"W1"` on the concrete table. -/
theorem explorer_warehouse_filter_refines_witness :
    ("W1" : String) ≠ "All" ∧
    ((∀ sb sc r, r ∈ filtered_df "W1" sb sc exDf → r.Warehouse = "W1") ∧
     (∀ sb sc, filtered_df "W1" sb sc exDf =
       filtered_df "All" sb sc (exDf.filter fun r => decide (r.Warehouse = "W1"))) ∧
     (∀ (α : Type) (f : List SRow → α) (sb sc : String),
       f (filtered_df "W1" sb sc exDf) =
         f (filtered_df "All" sb sc (exDf.filter fun r => decide (r.Warehouse = "W1")))) ∧
     (∀ (proj : SRow → String) (l : List SRow), eqFilter "All" proj l = l) ∧
     (filtered_df "All" "All" "All" exDf = exDf)) :=
  ⟨by decide, explorer_warehouse_filter_refines exDf "W1" (by decide)⟩

/-- Witness: the amended insight-composer property evaluated on the
concrete table with valid sampling draws. -/
theorem insights_skip_empty_rules_witness :
    (([0, 1] : List Nat).length = min 2 (high_cost_low_sales_df exDf).length) ∧
    (([0] : List Nat).length = min 2 (expiring_df 0 exDf).length) ∧
    (∃ ls, overview_insights exDf 0 [0, 1] [0] = some ls ∧
      lowLine (low_doi_count exDf) ∈ ls ∧
      (overstock_df exDf = [] → ∀ b v, buyerLine b v ∉ ls) ∧
      (high_cost_low_sales_df exDf = [] → ∀ ps, riskyLine ps ∉ ls) ∧
      (expiring_df 0 exDf = [] → ∀ ps, expiringLine ps ∉ ls)) :=
  ⟨by decide, by rw [expiring_df_exDf]; decide,
    insights_skip_empty_rules exDf 0 [0, 1] [0] (by decide) (by rw [expiring_df_exDf]; decide)⟩
